import Mathlib

/-
Shallow embedding of the piper-go-gen packaging tool (src/main.go and
src/tarzst.go) for checking the natural-language specification.

Go error values are modelled as strings; `Option Err` is a possibly-nil
error, `Except Err α` a (value, error) pair where exactly one side is set.
Machine byte streams are `List Nat` (each element one byte value).
The local filesystem is an association list from path to file node; an
insert shadows earlier entries, matching create/truncate semantics.
-/

namespace PiperGen

abbrev Err := String

/- Go os.FileMode type bits (src uses os.ModeSymlink, FileMode.IsRegular,
and info.Mode() from Lstat). Values are the bit positions used by the Go os package. -/

def ModeDir : Nat := 2 ^ 31
def ModeSymlink : Nat := 2 ^ 27
def ModeDevice : Nat := 2 ^ 26
def ModeNamedPipe : Nat := 2 ^ 25
def ModeSocket : Nat := 2 ^ 24
def ModeCharDevice : Nat := 2 ^ 21
def ModeIrregular : Nat := 2 ^ 19

/- os.ModeType: the union of all type bits; FileMode.IsRegular reports that
no type bit is set. -/
def ModeType : Nat :=
  ModeDir ||| ModeSymlink ||| ModeNamedPipe ||| ModeSocket ||| ModeDevice |||
    ModeCharDevice ||| ModeIrregular

def fileModeIsRegular (m : Nat) : Bool := m &&& ModeType == 0

/- One node of the local filesystem. -/
inductive FileNode where
  | regular (perm : Nat) (content : List Nat)
  | symlink (target : String)
  | directory (perm : Nat)
deriving Repr, DecidableEq

abbrev FS := List (String × FileNode)

def FS.insert (fs : FS) (p : String) (n : FileNode) : FS := (p, n) :: fs

/- os.Lstat: mode bits of the node itself (no symlink following). Symlinks
carry the symlink type bit and 0o777 permissions on Linux. -/
def FileNode.modeBits : FileNode → Nat
  | .regular perm _ => perm
  | .symlink _ => ModeSymlink ||| 0o777
  | .directory perm => ModeDir ||| perm

/- os.Lstat: size of the node itself. POSIX reports the byte length of the
target path string as the size of a symbolic link. -/
def FileNode.sizeBytes : FileNode → Nat
  | .regular _ c => c.length
  | .symlink t => t.length
  | .directory _ => 4096

/- os.Open followed by reading the whole stream (io.Copy from the handle):
symbolic links are followed (the kernel resolves at most 40 levels);
opening a directory succeeds but reading it fails, folded into one error
here since every caller treats any of these failures alike. -/
def FS.resolveRead (fs : FS) : Nat → String → Except Err (List Nat)
  | 0, _ => .error "failed to open: too many levels of symbolic links"
  | fuel + 1, p =>
    match fs.lookup p with
    | some (.regular _ c) => .ok c
    | some (.symlink t) => FS.resolveRead fs fuel t
    | some (.directory _) => .error "failed to copy: is a directory"
    | none => .error "failed to open: no such file"

def FS.openRead (fs : FS) (p : String) : Except Err (List Nat) :=
  FS.resolveRead fs 40 p

/- Subset of the Go tar.Header populated by this program: Name, Mode, Size,
Linkname, Typeflag. -/
structure TarHeader where
  name : String
  mode : Nat
  size : Nat
  linkname : String
  typeflag : Nat
deriving Repr, DecidableEq

/- tar type flag constants used by the program (tar.TypeSymlink = byte of
the character 2) and friends, needed for archive/tar payload accounting. -/
def TypeLink : Nat := 49
def TypeSymlink : Nat := 50
def TypeChar : Nat := 51
def TypeBlock : Nat := 52
def TypeDir : Nat := 53
def TypeFifo : Nat := 54

/- archive/tar isHeaderOnlyType: these entry types carry no data payload,
so the writer accepts zero content bytes for them no matter what Size says. -/
def isHeaderOnlyType (flag : Nat) : Bool :=
  flag == TypeLink || flag == TypeSymlink || flag == TypeChar ||
    flag == TypeBlock || flag == TypeDir || flag == TypeFifo

def tarPayloadSize (h : TarHeader) : Nat :=
  if isHeaderOnlyType h.typeflag then 0 else h.size

/- One entry of the produced archive: the header written plus the content
bytes written after it. -/
structure TarEntry where
  header : TarHeader
  content : List Nat
deriving Repr, DecidableEq

/- Tarball.Append: tar.Writer.WriteHeader, then io.Copy of the whole reader
into the entry writer, then Flush. archive/tar returns ErrWriteTooLong once
more than the declared payload size is written, and Flush fails when fewer
bytes than declared were written. -/
def Tarball.Append (h : TarHeader) (r : List Nat) : Except Err TarEntry :=
  if tarPayloadSize h < r.length then
    .error "failed to copy data: archive/tar: write too long"
  else if r.length < tarPayloadSize h then
    .error "failed to flush data: archive/tar: missed writing data"
  else
    .ok ⟨h, r⟩

/- Tarball.AppendFile: opens src (following symlinks), Lstats src (not
following), builds a header from the Lstat info, copies the Linkname out of
the link when the mode has the symlink bit, and delegates to Append. The
Typeflag of the header is never set, so it stays at the zero value. -/
def Tarball.AppendFile (fs : FS) (dest src : String) : Except Err TarEntry := do
  let content ← FS.openRead fs src
  let info ← match fs.lookup src with
    | some node => Except.ok node
    | none => Except.error "failed to read file info"
  let h : TarHeader := ⟨dest, info.modeBits, info.sizeBytes, "", 0⟩
  let h ← if info.modeBits &&& ModeSymlink != 0 then
      match info with
      | .symlink t => Except.ok { h with linkname := t }
      | _ => Except.error "failed to read symlink"
    else Except.ok h
  Tarball.Append h content

/- errors.Join of an accumulator with one more non-nil error: Go joins the
messages with a newline and drops nil operands. -/
def errJoin (acc : Option Err) (e : Err) : Option Err :=
  match acc with
  | none => some e
  | some prev => some (prev ++ "\n" ++ e)

/- Tarball.Close (src/main.go): closes writer, then encoder, then file,
joining every non-nil close error into the returned error. The three
arguments are the close results of the three layers in that order. -/
def Tarball.Close (we ee fe : Option Err) : Option Err :=
  let err : Option Err := none
  let err := match we with
    | some e => errJoin err ("failed to close writer: " ++ e)
    | none => err
  let err := match ee with
    | some e => errJoin err ("failed to close encoder: " ++ e)
    | none => err
  let err := match fe with
    | some e => errJoin err ("failed to close file: " ++ e)
    | none => err
  err

/- TarZstWriter.Close (src/tarzst.go): closes all three layers and computes
a first-error-wins err value, but the final statement is `return nil`, so
the computed error is discarded and the function always reports success. -/
set_option linter.unusedVariables false in
def TarZstWriter.Close (te ze fe : Option Err) : Option Err :=
  let err : Option Err := none
  let err := if err.isNone && te.isSome then
      te.map (fun e => "TarZstWriter.Close: tar: " ++ e)
    else err
  let err := if err.isNone && ze.isSome then
      ze.map (fun e => "TarZstWriter.Close: zst: " ++ e)
    else err
  let err := if err.isNone && fe.isSome then
      fe.map (fun e => "TarZstWriter.Close: file: " ++ e)
    else err
  none

/- The archive writer value produced by a successful creation: it owns the
destination file, the encoder wrapping it, and the tar writer wrapping the
encoder. -/
structure Tarball where
  filename : String
deriving Repr, DecidableEq

structure NewTarballResult where
  result : Except Err Tarball
  fileClosed : Bool
deriving Repr

/- newTarball (src/main.go): MkdirAll (whose error is ignored; a failure
there surfaces as the create failing), os.Create, zstd.NewWriter over the
file, tar.NewWriter over the encoder. The two Option arguments are the
outcomes of the two fallible steps: file creation and encoder creation.
On encoder failure the already-opened file handle is closed (fileClosed)
before the error is returned. -/
def newTarball (filename : String) (createErr encoderErr : Option Err) :
    NewTarballResult :=
  match createErr with
  | some e => ⟨.error ("failed to create file: " ++ e), false⟩
  | none =>
    match encoderErr with
    | some e => ⟨.error ("failed to create zstd encoder: " ++ e), true⟩
    | none => ⟨.ok ⟨filename⟩, false⟩

/- createTarZst (src/tarzst.go): structurally identical to newTarball, with
its own error message wrapping. -/
def createTarZst (filename : String) (createErr encoderErr : Option Err) :
    NewTarballResult :=
  match createErr with
  | some e => ⟨.error ("createTarZst: create output file: " ++ e), false⟩
  | none =>
    match encoderErr with
    | some e => ⟨.error ("createTarZst: create zstd writer: " ++ e), true⟩
    | none => ⟨.ok ⟨filename⟩, false⟩

/- Upper-case hexadecimal digit, as the Go url escaping emits. -/
def hexUpper (n : Nat) : Char :=
  if n < 10 then Char.ofNat (48 + n) else Char.ofNat (55 + n)

/- url.QueryEscape of one byte of the UTF-8 encoding of the input: space
becomes a plus sign, unreserved bytes (alphanumerics and - _ . ~) pass
through, every other byte becomes a percent-escape. -/
def queryEscapeByte (b : Nat) : List Char :=
  if b == 32 then [Char.ofNat 43]
  else if (48 ≤ b && b ≤ 57) || (65 ≤ b && b ≤ 90) || (97 ≤ b && b ≤ 122) ||
      b == 45 || b == 95 || b == 46 || b == 126 then [Char.ofNat b]
  else [Char.ofNat 37, hexUpper (b / 16), hexUpper (b % 16)]

def queryEscape (s : String) : String :=
  String.mk (((s.toUTF8.toList.map (fun b => b.toNat)).map queryEscapeByte).flatten)

/- The cache path computed by download: filepath.Join of the root, the
fixed cache subdirectory, and the escaped source address. filepath.Join
also Cleans the result; a clean nonempty root makes Join exactly slash
concatenation. -/
def cachePath (rootDir srcURL : String) : String :=
  rootDir ++ "/piper-gen.cache/" ++ queryEscape srcURL

/- Outcome of one http.Get plus the subsequent body reads: either the
transport fails outright, or a response arrives carrying a status code and
the bytes the body delivers before an optional mid-stream read error. -/
inductive NetResult where
  | transportError (e : Err)
  | response (status : Nat) (delivered : List Nat) (readErr : Option Err)
deriving Repr, DecidableEq

structure DownloadResult where
  filename : String
  error : Option Err
  fs : FS
  netCalls : Nat
deriving Repr, DecidableEq

/- download (src/main.go): computes the cache path; if os.Stat finds a file
there it returns that path at once, touching neither the filesystem nor the
network. Otherwise it creates (truncates) the destination, issues one
http.Get, and copies the body into the file. The response status code is
never inspected. Failures return an empty filename and a wrapped error, and
no path removes or truncates the destination after its creation. The
deferred close of the handle is modelled as succeeding. -/
def download (fs : FS) (rootDir srcURL : String) (net : NetResult) :
    DownloadResult :=
  let filename := cachePath rootDir srcURL
  if (fs.lookup filename).isSome then
    ⟨filename, none, fs, 0⟩
  else
    let fs1 := fs.insert filename (.regular 0o644 [])
    match net with
    | .transportError e =>
      ⟨"", some ("failed to download: " ++ e), fs1, 1⟩
    | .response _status delivered readErr =>
      let fs2 := fs1.insert filename (.regular 0o644 delivered)
      match readErr with
      | some e => ⟨"", some ("failed to download: " ++ e), fs2, 1⟩
      | none => ⟨filename, none, fs2, 1⟩

/- sort.Strings: lexicographic ascending sort. -/
def sortStrings (l : List String) : List String := l.mergeSort

/- The fingerprint of installMeta (src/main.go): copies the filename list,
sorts it, and streams the bytes of each file through one accumulating xxh3 hash via
hashFile (os.Open + io.Copy). The external hash is abstracted as any
function of the accumulated byte stream: feeding files one after another
into one streaming hash instance is hashing their concatenation. -/
def installMetaDigest (hash : List Nat → Nat) (fs : FS)
    (filenames : List String) : Except Err Nat :=
  match (sortStrings filenames).mapM (fun fn => FS.openRead fs fn) with
  | .error e => .error ("failed to hash file: " ++ e)
  | .ok contents => .ok (hash contents.flatten)

/- filepath.Base: empty becomes a dot, trailing slashes are dropped, then
everything after the last slash remains; all slashes leaves a slash. -/
def filepathBase (p : String) : String :=
  if p = "" then "." else
  let cs := (p.data.reverse).dropWhile (fun c => c == Char.ofNat 47)
  if cs = [] then "/" else
  String.mk ((cs.takeWhile (fun c => c != Char.ofNat 47)).reverse)

/- filepath.Ext: scans backward from the end, stopping at a path separator;
the suffix from the final dot of the last element, or empty. -/
def extAux : List Char → List Char → String
  | [], _ => ""
  | c :: rest, acc =>
    if c == Char.ofNat 47 then ""
    else if c == Char.ofNat 46 then String.mk (c :: acc)
    else extAux rest (c :: acc)

def filepathExt (p : String) : String := extAux p.data.reverse []

/- The switch at the top of the loop body of installVoice: MODEL_CARD keeps its
name, .onnx becomes voice.onnx, .json becomes voice.json, anything else is
a hard error raised before that URL is downloaded or appended. -/
def classifyVoiceURL (url : String) : Except Err String :=
  let basename := filepathBase url
  let extension := filepathExt basename
  if basename = "MODEL_CARD" then .ok basename
  else if extension = ".onnx" then .ok "voice.onnx"
  else if extension = ".json" then .ok "voice.json"
  else .error ("encountered unexpected file extension " ++ extension)

/- The URL loop of installVoice, tracking which (archive name, source URL) pairs
have been appended to the tarball when the loop stops. Downloads and
appends of accepted URLs are modelled as succeeding, which isolates the
classification logic the claim is about; a classification error returns at
once, leaving only the earlier URLs appended. -/
def installVoiceLoop : List String → List (String × String) →
    List (String × String) × Option Err
  | [], appended => (appended, none)
  | url :: rest, appended =>
    match classifyVoiceURL url with
    | .error e => (appended, some e)
    | .ok basename => installVoiceLoop rest (appended ++ [(basename, url)])

/- strings.HasPrefix, character by character. -/
def listIsPfxOf : List Char → List Char → Bool
  | [], _ => true
  | _ :: _, [] => false
  | a :: as, b :: bs => a == b && listIsPfxOf as bs

/- strings.TrimPrefix: when the prefix matches, the result drops exactly
the characters of the prefix. -/
def trimPfx (s pre : String) : String :=
  if listIsPfxOf pre.data s.data then String.mk (s.data.drop pre.data.length)
  else s

/- One entry as the external extractor hands it to the callback: archive
path, Go mode bits, declared size, link target, and the bytes its Open
delivers. -/
structure ArchiveFile where
  nameInArchive : String
  mode : Nat
  size : Nat
  linkTarget : String
  content : List Nat
deriving Repr, DecidableEq

/- The per-entry callback of installPiper (src/main.go), parametrised by the
top-level directory name (the source instantiates it with the string
piper, stripping piper plus slash and filtering on piper): entries that
are neither regular nor symlinks — directories included — are skipped
(none); accepted entries are appended with the prefix stripped, the mode,
size and link target carried over, and the symlink type flag set for
symlinks. -/
def installPiperHandler (top : String) (f : ArchiveFile) :
    Option (Except Err TarEntry) :=
  if !(fileModeIsRegular f.mode) && f.mode &&& ModeSymlink == 0 then none
  else
    let h : TarHeader :=
      ⟨trimPfx f.nameInArchive (top ++ "/"), f.mode, f.size, f.linkTarget,
        if f.mode &&& ModeSymlink != 0 then TypeSymlink else 0⟩
    some (Tarball.Append h f.content)

/- Modelled from the spec: the extractor behind archiver.Extractor is an
external capability; per the spec it invokes the callback "for every entry
whose relative path matches pathFilter (a prefix or exact-match
predicate)". -/
def matchesFilter (top : String) (name : String) : Bool :=
  name == top || listIsPfxOf (top ++ "/").data name.data

def extractFiltered (top : String) (entries : List ArchiveFile) :
    List ArchiveFile :=
  entries.filter (fun f => matchesFilter top f.nameInArchive)

/- The repackage step of installPiper: the extractor delivers the filtered
entries in order to the callback; a callback error aborts the extraction,
otherwise the accepted entries accumulate in the destination archive. -/
def repackage (top : String) (entries : List ArchiveFile) :
    Except Err (List TarEntry) :=
  (extractFiltered top entries).foldlM
    (fun acc f =>
      match installPiperHandler top f with
      | none => Except.ok acc
      | some (.error e) => Except.error e
      | some (.ok entry) => Except.ok (acc ++ [entry]))
    []

/- Go slice aliasing model for the first two lines of installMeta: backing
arrays live in a heap indexed by id; a slice value references an id. An
append to a nil slice allocates a fresh array holding a copy; sort.Strings
sorts the backing array of its argument in place. -/
structure SliceHeap where
  arrays : List (Nat × List String)
  next : Nat
deriving Repr, DecidableEq

structure GoSlice where
  id : Nat
deriving Repr, DecidableEq

def SliceHeap.get (h : SliceHeap) (s : GoSlice) : List String :=
  (h.arrays.lookup s.id).getD []

def SliceHeap.alloc (h : SliceHeap) (content : List String) :
    SliceHeap × GoSlice :=
  (⟨(h.next, content) :: h.arrays, h.next + 1⟩, ⟨h.next⟩)

def SliceHeap.store (h : SliceHeap) (s : GoSlice) (content : List String) :
    SliceHeap :=
  ⟨(s.id, content) :: h.arrays, h.next⟩

/- A heap is well formed when every slice in use references an id below the
allocation cursor. -/
abbrev SliceHeap.wf (h : SliceHeap) (s : GoSlice) : Prop := s.id < h.next

/- The slice-level prefix of installMeta:
filenames = append([]string(nil), filenames...) then sort.Strings(filenames).
Returns the final heap and the slice the rest of the function reads. -/
def installMetaSortStep (h : SliceHeap) (filenames : GoSlice) :
    SliceHeap × GoSlice :=
  let allocated := h.alloc (h.get filenames)
  let h1 := allocated.1
  let copySlice := allocated.2
  let h2 := h1.store copySlice (sortStrings (h1.get copySlice))
  (h2, copySlice)

def exceptIsOk {α : Type} : Except Err α → Bool
  | .ok _ => true
  | .error _ => false

/- A URL the installVoice switch rejects: neither MODEL_CARD nor a
recognised extension. -/
def badVoiceURL (u : String) : Bool :=
  match classifyVoiceURL u with
  | .error _ => true
  | .ok _ => false

/- Concrete fixtures used by counterexamples and witnesses. -/

def fsSymlink : FS :=
  [("lnk", .symlink "abc"), ("abc", .regular 420 [10, 11, 12])]

def fsHashW : FS :=
  [("a.bin", .regular 420 [1, 2]), ("b.bin", .regular 420 [3])]

def piperExampleEntries : List ArchiveFile :=
  [⟨"foo/bar.txt", 420, 2, "", [1, 2]⟩,
   ⟨"foo/baz/", ModeDir ||| 493, 0, "", []⟩,
   ⟨"other/skip.txt", 420, 4, "", [5, 5, 5, 5]⟩]

def heapW : SliceHeap := ⟨[(0, ["b", "a"])], 1⟩

/-
Theorems.
-/

/- Sorting is invariant under permutation of the input: mergeSort yields
the unique sorted rearrangement. -/
theorem sortStrings_perm_eq {l1 l2 : List String} (h : l1.Perm l2) :
    sortStrings l1 = sortStrings l2 :=
  List.eq_of_perm_of_sorted
    ((List.mergeSort_perm l1 _).trans (h.trans (List.mergeSort_perm l2 _).symm))
    (List.sorted_mergeSort' l1) (List.sorted_mergeSort' l2)

/-- Claim C1, behaviour of the code at the failing input: appending a
symbolic link named lnk pointing at abc, where abc holds the three bytes
10 11 12, produces an entry whose size is 3 (the Lstat size of the link,
the length of the target string) and whose content is the three bytes of
abc read through the link — not a zero-length entry with no content read. -/
theorem appendFile_symlink_reads_through_link :
    Tarball.AppendFile fsSymlink "x" "lnk" =
      .ok ⟨⟨"x", ModeSymlink ||| 511, 3, "abc", 0⟩, [10, 11, 12]⟩ ∧
    (3 : Nat) ≠ 0 :=
  ⟨rfl, by decide⟩

/-- Claim C2, behaviour of the code at the failing input: when the tar
layer close fails, TarZstWriter.Close still returns nil (success),
swallowing the failure instead of aggregating it. -/
theorem tarZstClose_swallows_failure :
    TarZstWriter.Close (some "disk full") none none = none ∧
    (some "disk full" : Option Err).isSome = true :=
  ⟨rfl, rfl⟩

/-- Claim C3: Fetch is idempotent on the cache. If a file already exists at
the computed cache path the call returns that path immediately, making no
network request and leaving the filesystem untouched; consequently, after
any successful call, a second call with the same address returns the same
path, performs no network access, and changes nothing. -/
theorem download_cache_idempotent (fs : FS) (root url : String)
    (net net2 : NetResult)
    (hok : (download fs root url net).error = none) :
    (∀ fs' : FS, ((fs'.lookup (cachePath root url)).isSome = true) →
        download fs' root url net2 = ⟨cachePath root url, none, fs', 0⟩)
    ∧ download (download fs root url net).fs root url net2 =
        ⟨(download fs root url net).filename, none,
          (download fs root url net).fs, 0⟩ := by
  constructor
  · intro fs' h
    simp [download, h]
  · unfold download at hok ⊢
    rcases hcase : (fs.lookup (cachePath root url)).isSome with _ | _
    · simp only [hcase, Bool.false_eq_true, if_neg, if_false] at hok ⊢
      rcases net with e | ⟨status, delivered, readErr⟩
      · simp at hok
      · rcases readErr with _ | e
        · simp [FS.insert, List.lookup]
        · simp at hok
    · simp [hcase]

theorem download_cache_idempotent_witness :
    ((download [] "r" "u" (.response 200 [7] none)).error = none)
    ∧ ((∀ fs' : FS, ((fs'.lookup (cachePath "r" "u")).isSome = true) →
        download fs' "r" "u" (.response 200 [9] none) =
          ⟨cachePath "r" "u", none, fs', 0⟩)
      ∧ download (download [] "r" "u" (.response 200 [7] none)).fs "r" "u"
          (.response 200 [9] none) =
        ⟨(download [] "r" "u" (.response 200 [7] none)).filename, none,
          (download [] "r" "u" (.response 200 [7] none)).fs, 0⟩) :=
  ⟨by decide, download_cache_idempotent [] "r" "u" _ _ (by decide)⟩

/-- Claim C4: the fingerprint computed by installMeta does not depend on
the order of the input file list — the list is sorted before the files are
streamed through the accumulating hash, so any permutation of the input
yields the same digest. -/
theorem installMeta_fingerprint_order_independent
    (hash : List Nat → Nat) (fs : FS) (l1 l2 : List String)
    (h : l1.Perm l2) :
    installMetaDigest hash fs l1 = installMetaDigest hash fs l2 := by
  unfold installMetaDigest
  rw [sortStrings_perm_eq h]

theorem installMeta_fingerprint_order_independent_witness :
    (["b.bin", "a.bin"] : List String).Perm ["a.bin", "b.bin"] ∧
    installMetaDigest List.sum fsHashW ["b.bin", "a.bin"] =
      installMetaDigest List.sum fsHashW ["a.bin", "b.bin"] :=
  ⟨by decide,
    installMeta_fingerprint_order_independent List.sum fsHashW _ _ (by decide)⟩

/-- Claim C8: whenever download fails in the network phase or the copy
phase, it returns an error while the cache file created for this fetch is
still present on disk; a mid-copy failure leaves exactly the bytes
delivered so far in it, and no failure path deletes or truncates it. -/
theorem download_failure_leaves_partial_file (fs : FS) (root url : String)
    (net : NetResult)
    (hfail : (download fs root url net).error.isSome = true) :
    (((download fs root url net).fs.lookup (cachePath root url)).isSome = true)
    ∧ (∀ status delivered e, net = .response status delivered (some e) →
        (download fs root url net).fs.lookup (cachePath root url) =
          some (.regular 0o644 delivered)) := by
  unfold download at hfail ⊢
  rcases hcase : (fs.lookup (cachePath root url)).isSome with _ | _
  · simp only [hcase, Bool.false_eq_true, if_neg, if_false] at hfail ⊢
    rcases net with e | ⟨status, delivered, readErr⟩
    · simp [FS.insert, List.lookup]
    · rcases readErr with _ | e
      · simp at hfail
      · simp [FS.insert, List.lookup]
  · simp [hcase] at hfail

theorem download_failure_leaves_partial_file_witness :
    ((download [] "r" "u" (.transportError "conn refused")).error.isSome = true)
    ∧ ((((download [] "r" "u" (.transportError "conn refused")).fs.lookup
          (cachePath "r" "u")).isSome = true)
      ∧ (∀ status delivered e,
          NetResult.transportError "conn refused" =
            .response status delivered (some e) →
          (download [] "r" "u" (.transportError "conn refused")).fs.lookup
            (cachePath "r" "u") = some (.regular 0o644 delivered))) :=
  ⟨by decide, download_failure_leaves_partial_file [] "r" "u" _ (by decide)⟩

/-- Claim C9: download never inspects the HTTP status code. For every
status (a 404 included), a transport-level success with a fully delivered
body is treated as a successful fetch: the body is written to the cache
file and the path is returned with no error. -/
theorem download_ignores_http_status (fs : FS) (root url : String)
    (status : Nat) (body : List Nat)
    (hmiss : fs.lookup (cachePath root url) = none) :
    download fs root url (.response status body none) =
      ⟨cachePath root url, none,
        (fs.insert (cachePath root url) (.regular 0o644 [])).insert
          (cachePath root url) (.regular 0o644 body), 1⟩ := by
  simp [download, hmiss]

theorem download_ignores_http_status_witness :
    (([] : FS).lookup (cachePath "r" "u") = none)
    ∧ download [] "r" "u" (.response 404 [4, 0, 4] none) =
      ⟨cachePath "r" "u", none,
        FS.insert (FS.insert [] (cachePath "r" "u") (.regular 0o644 []))
          (cachePath "r" "u") (.regular 0o644 [4, 0, 4]), 1⟩ :=
  ⟨by decide, download_ignores_http_status [] "r" "u" 404 [4, 0, 4] (by decide)⟩

/-- Claim C5: during repackaging, entries that are neither regular files
nor symbolic links — directories among them — are skipped by the callback
(nothing appended), and the concrete scenario of the spec holds: a source
holding foo/bar.txt, foo/baz/ and other/skip.txt, filtered on the foo
prefix with that prefix stripped, yields exactly one entry named bar.txt
carrying the original content and no directory entry. -/
theorem repackage_skips_and_strips :
    (∀ (top : String) (f : ArchiveFile),
        fileModeIsRegular f.mode = false → f.mode &&& ModeSymlink = 0 →
        installPiperHandler top f = none)
    ∧ repackage "foo" piperExampleEntries =
        .ok [⟨⟨"bar.txt", 420, 2, "", 0⟩, [1, 2]⟩] := by
  constructor
  · intro top f h1 h2
    simp [installPiperHandler, h1, h2]
  · rfl

theorem repackage_skips_and_strips_witness :
    (fileModeIsRegular (ModeDir ||| 493) = false
      ∧ (ModeDir ||| 493) &&& ModeSymlink = 0)
    ∧ installPiperHandler "foo" ⟨"foo/baz/", ModeDir ||| 493, 0, "", []⟩
        = none :=
  ⟨⟨by decide, by decide⟩,
    repackage_skips_and_strips.1 "foo" ⟨"foo/baz/", ModeDir ||| 493, 0, "", []⟩
      (by decide) (by decide)⟩

/- Every pair the installVoice loop appends comes from a URL the switch
accepted. -/
theorem installVoiceLoop_appended_ok (urls : List String) :
    ∀ acc : List (String × String),
      ∃ l, (installVoiceLoop urls acc).1 = acc ++ l ∧
        ∀ p ∈ l, classifyVoiceURL p.2 = .ok p.1 := by
  induction urls with
  | nil => intro acc; exact ⟨[], by simp [installVoiceLoop]⟩
  | cons url rest ih =>
    intro acc
    rcases hc : classifyVoiceURL url with e | b
    · exact ⟨[], by simp [installVoiceLoop, hc]⟩
    · obtain ⟨l, hl, hprop⟩ := ih (acc ++ [(b, url)])
      refine ⟨(b, url) :: l, ?_, ?_⟩
      · simp [installVoiceLoop, hc, hl]
      · intro p hp
        rcases List.mem_cons.mp hp with hp1 | hp1
        · simpa [hp1] using hc
        · exact hprop p hp1

/- A rejected URL anywhere in the list makes the loop stop with an error. -/
theorem installVoiceLoop_error_of_bad (u : String) (hbad : badVoiceURL u = true) :
    ∀ (urls : List String) (acc : List (String × String)), u ∈ urls →
      (installVoiceLoop urls acc).2.isSome = true := by
  intro urls
  induction urls with
  | nil => intro acc h; cases h
  | cons url rest ih =>
    intro acc hmem
    rcases hc : classifyVoiceURL url with e | b
    · simp [installVoiceLoop, hc]
    · rcases List.mem_cons.mp hmem with heq | hrest
      · subst heq
        simp [badVoiceURL, hc] at hbad
      · simpa [installVoiceLoop, hc] using ih (acc ++ [(b, url)]) hrest

/-- Claim C6: if the voice asset list holds a URL whose basename is not
MODEL_CARD and whose extension is neither .onnx nor .json, the loop of
installVoice returns an error (it does not silently skip the file), and no entry
sourced from that URL is ever appended to the archive. -/
theorem installVoice_rejects_unexpected_extension (urls : List String)
    (u : String) (hmem : u ∈ urls) (hbad : badVoiceURL u = true) :
    ((installVoiceLoop urls []).2.isSome = true)
    ∧ u ∉ ((installVoiceLoop urls []).1.map Prod.snd) := by
  refine ⟨installVoiceLoop_error_of_bad u hbad urls [] hmem, ?_⟩
  intro hmemapp
  obtain ⟨l, hl, hprop⟩ := installVoiceLoop_appended_ok urls []
  rw [hl] at hmemapp
  simp only [List.nil_append, List.mem_map] at hmemapp
  obtain ⟨p, hp, hpu⟩ := hmemapp
  have := hprop p hp
  rw [hpu] at this
  simp [badVoiceURL, this] at hbad

theorem installVoice_rejects_unexpected_extension_witness :
    ("m/v.txt" ∈ (["m/MODEL_CARD", "m/v.onnx", "m/v.txt"] : List String)
      ∧ badVoiceURL "m/v.txt" = true)
    ∧ (((installVoiceLoop ["m/MODEL_CARD", "m/v.onnx", "m/v.txt"] []).2.isSome
          = true)
      ∧ "m/v.txt" ∉
          ((installVoiceLoop ["m/MODEL_CARD", "m/v.onnx", "m/v.txt"] []).1.map
            Prod.snd)) :=
  ⟨⟨by decide, by decide⟩,
    installVoice_rejects_unexpected_extension _ "m/v.txt" (by decide) (by decide)⟩

/-- Claim C7: archive creation (newTarball and createTarZst alike) returns
a writer exactly when both the file creation and the encoder initialization
succeed — an Except result, so no writer value ever accompanies an error —
and when the encoder fails after the file opened, the file handle is closed
before the error is returned. -/
theorem tarball_creation_error_cases (fn : String) (ce ee : Option Err) :
    (exceptIsOk (newTarball fn ce ee).result = (ce.isNone && ee.isNone))
    ∧ (exceptIsOk (createTarZst fn ce ee).result = (ce.isNone && ee.isNone))
    ∧ (ce = none → ee.isSome = true →
        (newTarball fn ce ee).fileClosed = true
        ∧ (createTarZst fn ce ee).fileClosed = true) := by
  rcases ce with _ | e1 <;> rcases ee with _ | e2 <;>
    simp [newTarball, createTarZst, exceptIsOk]

theorem tarball_creation_error_cases_witness :
    ((none : Option Err) = none ∧ (some "no encoder" : Option Err).isSome = true)
    ∧ ((exceptIsOk (newTarball "dist.tzst" none (some "no encoder")).result =
          ((none : Option Err).isNone && (some "no encoder" : Option Err).isNone))
      ∧ (exceptIsOk (createTarZst "dist.tzst" none (some "no encoder")).result =
          ((none : Option Err).isNone && (some "no encoder" : Option Err).isNone))
      ∧ ((none : Option Err) = none → (some "no encoder" : Option Err).isSome = true →
          (newTarball "dist.tzst" none (some "no encoder")).fileClosed = true
          ∧ (createTarZst "dist.tzst" none (some "no encoder")).fileClosed = true)) :=
  ⟨⟨rfl, rfl⟩, tarball_creation_error_cases "dist.tzst" none (some "no encoder")⟩

/-- Claim C10: installMeta copies its argument list into a fresh backing
array before sorting, so the array of the caller — hence the caller-visible
ordering of the filenames — is unchanged by the call, even though the copy
the function goes on to read is sorted. -/
theorem installMeta_does_not_mutate_caller (h : SliceHeap) (s : GoSlice)
    (hwf : h.wf s) :
    ((installMetaSortStep h s).1.get s = h.get s)
    ∧ ((installMetaSortStep h s).1.get (installMetaSortStep h s).2 =
        sortStrings (h.get s)) := by
  have hne : (s.id == h.next) = false := by
    simp [Nat.ne_of_lt hwf]
  constructor
  · simp [installMetaSortStep, SliceHeap.get, SliceHeap.alloc, SliceHeap.store,
      List.lookup, hne]
  · simp [installMetaSortStep, SliceHeap.get, SliceHeap.alloc, SliceHeap.store,
      List.lookup]

theorem installMeta_does_not_mutate_caller_witness :
    (heapW.wf ⟨0⟩)
    ∧ (((installMetaSortStep heapW ⟨0⟩).1.get ⟨0⟩ = heapW.get ⟨0⟩)
      ∧ ((installMetaSortStep heapW ⟨0⟩).1.get (installMetaSortStep heapW ⟨0⟩).2 =
          sortStrings (heapW.get ⟨0⟩))) :=
  ⟨by decide, installMeta_does_not_mutate_caller heapW ⟨0⟩ (by decide)⟩

end PiperGen
